import Mathlib

/-!
Shallow embedding of the gcrt result-processing pipeline
(src/app/structs.go): decode loop, deduplication, date filtering and
output formatting of the GetCerts function, together with the helper
functions removeDuplicateCerts and reSubMatchMap.  Timestamps are
modelled as civil date-times converted to second counts in the
proleptic Gregorian calendar; the external HTTP fetch is out of scope
and the decoded record list is a parameter of the pipeline.
-/

/-- One row returned by the crt.sh log service (struct CertResponse in
src/app/structs.go, lines 4 to 14). -/
structure CertResponse where
  issuerCAID : Int
  issuerName : String
  commonName : String
  nameValue : String
  id : Int
  entryTimestamp : String
  notBefore : String
  notAfter : String
  serialNumber : String
deriving DecidableEq, Repr

/-- A civil date-time as parsed from a YYYY-MM-DDTHH:MM:SS string. -/
structure DateTime where
  year : Nat
  month : Nat
  day : Nat
  hour : Nat
  minute : Nat
  second : Nat
deriving DecidableEq, Repr

/-- A civil date as parsed from a YYYY-MM-DD string. -/
structure CivilDate where
  year : Nat
  month : Nat
  day : Nat
deriving DecidableEq, Repr

/-- Gregorian leap-year test, as used by Go time parsing to validate the
day of month. -/
def isLeapYear (y : Nat) : Bool :=
  (y % 4 == 0 && y % 100 != 0) || y % 400 == 0

/-- Number of days of a month in a given year. -/
def daysInMonth (y m : Nat) : Nat :=
  if m = 2 then (if isLeapYear y then 29 else 28)
  else if m = 4 ∨ m = 6 ∨ m = 9 ∨ m = 11 then 30
  else 31

/-- Days of the year strictly before month m. -/
def daysBeforeMonth (y m : Nat) : Nat :=
  let base :=
    match m with
    | 1 => 0 | 2 => 31 | 3 => 59 | 4 => 90 | 5 => 120 | 6 => 151
    | 7 => 181 | 8 => 212 | 9 => 243 | 10 => 273 | 11 => 304 | _ => 334
  if 3 ≤ m ∧ isLeapYear y then base + 1 else base

/-- Day number of a civil date in the proleptic Gregorian calendar,
counting from year 0; a monotone encoding of the date part of a Go
time.Time value (all times in this program live in one location). -/
def dayNumber (y m d : Nat) : Nat :=
  365 * y + ((y + 3) / 4 + (y + 399) / 400 - (y + 99) / 100)
    + daysBeforeMonth y m + (d - 1)

/-- Second count of a date-time; the instant a parsed notBefore string
denotes, in the order used by time.Time.After and time.Time.Before. -/
def dtSecs (t : DateTime) : Nat :=
  dayNumber t.year t.month t.day * 86400
    + t.hour * 3600 + t.minute * 60 + t.second

/-- Day number of a date-time: its truncation to midnight, as built by
time.Date(certDate.Year(), certDate.Month(), certDate.Day(), 0,0,0,0, loc). -/
def dtDay (t : DateTime) : Nat :=
  dayNumber t.year t.month t.day

/-- Second count of the midnight instant of a civil date. -/
def dateSecs (d : CivilDate) : Nat :=
  dayNumber d.year d.month d.day * 86400

/-- Numeric value of a decimal digit character, none when the character
is not a digit. -/
def digitVal (c : Char) : Option Nat :=
  if '0' ≤ c ∧ c ≤ '9' then some (c.toNat - '0'.toNat) else none

/-- Read exactly two digits from the front of a character list. -/
def read2 : List Char → Option (Nat × List Char)
  | a :: b :: rest =>
    match digitVal a, digitVal b with
    | some x, some y => some (10 * x + y, rest)
    | _, _ => none
  | _ => none

/-- Read exactly four digits from the front of a character list. -/
def read4 : List Char → Option (Nat × List Char)
  | a :: b :: c :: d :: rest =>
    match digitVal a, digitVal b, digitVal c, digitVal d with
    | some w, some x, some y, some z => some (1000 * w + 100 * x + 10 * y + z, rest)
    | _, _, _, _ => none
  | _ => none

/-- Consume one expected literal character. -/
def expectChar (ch : Char) : List Char → Option (List Char)
  | c :: rest => if c = ch then some rest else none
  | [] => none

/-- Calendar validity of year, month and day, as checked by Go
time.Parse (month 1..12, day 1..daysInMonth). -/
def validDate (y m d : Nat) : Bool :=
  decide (1 ≤ m ∧ m ≤ 12 ∧ 1 ≤ d ∧ d ≤ daysInMonth y m)

/-- Models Go time.Parse with layout 2006-01-02T15:04:05 applied to a
certificate notBefore string (src/app/structs.go lines 195 and 210):
the whole string must be exactly four digits, a hyphen, two digits, a
hyphen, two digits, the letter T, then two digits, a colon, two digits,
a colon, two digits, with the fields in calendar range. -/
def parseCertTime (s : String) : Option DateTime := do
  let cs := s.data
  let (y, cs) ← read4 cs
  let cs ← expectChar '-' cs
  let (mo, cs) ← read2 cs
  let cs ← expectChar '-' cs
  let (d, cs) ← read2 cs
  let cs ← expectChar 'T' cs
  let (h, cs) ← read2 cs
  let cs ← expectChar ':' cs
  let (mi, cs) ← read2 cs
  let cs ← expectChar ':' cs
  let (sec, cs) ← read2 cs
  if cs = [] ∧ validDate y mo d = true ∧ h ≤ 23 ∧ mi ≤ 59 ∧ sec ≤ 59 then
    some ⟨y, mo, d, h, mi, sec⟩
  else none

/-- Models Go time.Parse with layout 2006-01-02 applied to a date-range
boundary (src/app/structs.go lines 177 and 185). -/
def parseDate (s : String) : Option CivilDate := do
  let cs := s.data
  let (y, cs) ← read4 cs
  let cs ← expectChar '-' cs
  let (mo, cs) ← read2 cs
  let cs ← expectChar '-' cs
  let (d, cs) ← read2 cs
  if cs = [] ∧ validDate y mo d = true then
    some ⟨y, mo, d⟩
  else none

/-- The decode loop of GetCerts (src/app/structs.go lines 154 to 163):
the stream is the ordered list of outcomes of successive Decode calls;
each successful decode contributes one JSON array of records, appended
to the accumulator, and the first failing decode (end of stream or any
other decode error) breaks the loop, returning what was accumulated. -/
def decodeLoop (acc : List CertResponse) :
    List (Except String (List CertResponse)) → List CertResponse
  | [] => acc
  | Except.error _ :: _ => acc
  | Except.ok c :: rest => decodeLoop (acc ++ c) rest

/-- The deduplication key of a record: the unchecked string
concatenation c.NameValue + c.NotBefore (src/app/structs.go line 255). -/
def certKey (c : CertResponse) : String :=
  c.nameValue ++ c.notBefore

/-- The loop of removeDuplicateCerts, with the set of already seen keys
made explicit (the Go map m of src/app/structs.go lines 250 to 259). -/
def dedupGo : List CertResponse → List String → List CertResponse
  | [], _ => []
  | c :: rest, seen =>
    if certKey c ∈ seen then dedupGo rest seen
    else c :: dedupGo rest (certKey c :: seen)

/-- removeDuplicateCerts (src/app/structs.go lines 249 to 261): keep the
first record of each key, in order. -/
def removeDuplicateCerts (certs : List CertResponse) : List CertResponse :=
  dedupGo certs []

/-- Whether the next 21 characters have the shape of the range regex
\d\x7b4\x7d-\d\x7b2\x7d-\d\x7b2\x7d:\d\x7b4\x7d-\d\x7b2\x7d-\d\x7b2\x7d;
on success returns the two captured group strings (startdate, enddate). -/
def rangeShapeAt : List Char → Option (String × String)
  | a1 :: a2 :: a3 :: a4 :: h1 :: b1 :: b2 :: h2 :: c1 :: c2 :: co ::
      d1 :: d2 :: d3 :: d4 :: h3 :: e1 :: e2 :: h4 :: f1 :: f2 :: _ =>
    if (digitVal a1).isSome && (digitVal a2).isSome && (digitVal a3).isSome
        && (digitVal a4).isSome && h1 == '-' && (digitVal b1).isSome
        && (digitVal b2).isSome && h2 == '-' && (digitVal c1).isSome
        && (digitVal c2).isSome && co == ':' && (digitVal d1).isSome
        && (digitVal d2).isSome && (digitVal d3).isSome && (digitVal d4).isSome
        && h3 == '-' && (digitVal e1).isSome && (digitVal e2).isSome
        && h4 == '-' && (digitVal f1).isSome && (digitVal f2).isSome then
      some (String.mk [a1, a2, a3, a4, h1, b1, b2, h2, c1, c2],
            String.mk [d1, d2, d3, d4, h3, e1, e2, h4, f1, f2])
    else none
  | _ => none

/-- Leftmost unanchored match of the range regex over the input, as
regexp.FindStringSubmatch does inside reSubMatchMap
(src/app/structs.go lines 263 to 273); returns the two capture groups. -/
def findRange : List Char → Option (String × String)
  | [] => none
  | c :: rest =>
    match rangeShapeAt (c :: rest) with
    | some r => some r
    | none => findRange rest

/-- The date-range setup of GetCerts (src/app/structs.go lines 172 to
192): extract the startdate and enddate groups, fatally fail when the
regex did not match or either boundary does not parse as a calendar
date, and extend the end boundary by 23 hours 59 minutes 59 seconds.
Returns the pair of second counts (startSecs, endSecs). -/
def setupRange (between : String) : Except String (Nat × Nat) :=
  match findRange between.data with
  | none => Except.error "start date not provided in valid format"
  | some (sd, ed) =>
    match parseDate sd with
    | none => Except.error "Error parsing start date"
    | some sdt =>
      match parseDate ed with
      | none => Except.error "Error parsing end date"
      | some edt => Except.ok (dateSecs sdt, dateSecs edt + 86399)

/-- The date-range filtering loop of GetCerts (src/app/structs.go lines
194 to 205): first component is the list of kept records (notBefore
parses and lies strictly between the two instants), second component is
the list of ids of records whose notBefore failed to parse (each logged
as a warning and skipped). -/
def rangeFilterLog (startSecs endSecs : Nat) :
    List CertResponse → List CertResponse × List Int
  | [] => ([], [])
  | c :: rest =>
    match parseCertTime c.notBefore with
    | none =>
      ((rangeFilterLog startSecs endSecs rest).1,
        c.id :: (rangeFilterLog startSecs endSecs rest).2)
    | some t =>
      if startSecs < dtSecs t ∧ dtSecs t < endSecs then
        (c :: (rangeFilterLog startSecs endSecs rest).1,
          (rangeFilterLog startSecs endSecs rest).2)
      else rangeFilterLog startSecs endSecs rest

/-- The days-threshold filtering loop of GetCerts (src/app/structs.go
lines 209 to 221): the threshold is a day number; a record is kept when
its notBefore parses and its day number equals or exceeds the
threshold; records whose notBefore fails to parse are logged by id and
skipped. -/
def daysFilterLog (thresholdDay : Int) :
    List CertResponse → List CertResponse × List Int
  | [] => ([], [])
  | c :: rest =>
    match parseCertTime c.notBefore with
    | none =>
      ((daysFilterLog thresholdDay rest).1,
        c.id :: (daysFilterLog thresholdDay rest).2)
    | some t =>
      if thresholdDay = (dtDay t : Int) ∨ thresholdDay < (dtDay t : Int) then
        (c :: (daysFilterLog thresholdDay rest).1,
          (daysFilterLog thresholdDay rest).2)
      else daysFilterLog thresholdDay rest

/-- The filter-mode dispatch of GetCerts (src/app/structs.go lines 171
to 224): date range when the between string is nonempty (fatal error
when its setup fails), otherwise the days threshold when days is
positive (the threshold day is today minus days), otherwise no filter. -/
def filterStage (between : String) (days : Int) (todayDay : Int)
    (certs : List CertResponse) : Except String (List CertResponse × List Int) :=
  if 0 < between.length then
    match setupRange between with
    | Except.error e => Except.error e
    | Except.ok (s, e) => Except.ok (rangeFilterLog s e certs)
  else if 0 < days then
    Except.ok (daysFilterLog (todayDay - days) certs)
  else
    Except.ok (certs, [])

/-- A record as marshalled by CertResponse.MarshalJSON
(src/app/structs.go lines 239 to 247): every field of the record plus
the computed crt_sh_link field. -/
structure EnrichedCertResponse where
  crtShLink : String
  issuerCAID : Int
  issuerName : String
  commonName : String
  nameValue : String
  id : Int
  entryTimestamp : String
  notBefore : String
  notAfter : String
  serialNumber : String
deriving DecidableEq, Repr

/-- The enrichment done by MarshalJSON: the crt_sh_link field is the
fixed prefix concatenated with the decimal rendering of the id. -/
def enrich (c : CertResponse) : EnrichedCertResponse :=
  { crtShLink := "https://crt.sh/?id=" ++ toString c.id,
    issuerCAID := c.issuerCAID, issuerName := c.issuerName,
    commonName := c.commonName, nameValue := c.nameValue, id := c.id,
    entryTimestamp := c.entryTimestamp, notBefore := c.notBefore,
    notAfter := c.notAfter, serialNumber := c.serialNumber }

/-- What the program writes to standard output. -/
inductive GcrtOutput where
  | countLine : String → GcrtOutput
  | records : List EnrichedCertResponse → GcrtOutput
  | noOutput : GcrtOutput
deriving DecidableEq, Repr

/-- The output step of GetCerts (src/app/structs.go lines 226 to 233):
in count mode print the count line and return; otherwise print the
marshalled record list only when more than one record survived. -/
def formatOutput (countFlag : Bool) (outputCerts : List CertResponse) : GcrtOutput :=
  if countFlag then
    GcrtOutput.countLine ("Number of certs found: " ++ toString outputCerts.length)
  else if 1 < outputCerts.length then
    GcrtOutput.records (outputCerts.map enrich)
  else
    GcrtOutput.noOutput

/-- GetCerts (src/app/structs.go lines 134 to 234) from the point where
the response stream has been decoded: deduplicate, filter by the
selected mode, then format.  A fatal log call is an error result and
produces no output; the second component of a success is the list of
ids warned about during filtering. -/
def GetCerts (between : String) (days : Int) (countFlag : Bool)
    (todayDay : Int) (decoded : List CertResponse) :
    Except String (GcrtOutput × List Int) :=
  match filterStage between days todayDay (removeDuplicateCerts decoded) with
  | Except.error e => Except.error e
  | Except.ok (outputCerts, warns) =>
    Except.ok (formatOutput countFlag outputCerts, warns)

/-- Boolean keep-condition of the date-range loop for one record. -/
def keepRange (startSecs endSecs : Nat) (c : CertResponse) : Bool :=
  match parseCertTime c.notBefore with
  | none => false
  | some t => decide (startSecs < dtSecs t ∧ dtSecs t < endSecs)

/-- Boolean keep-condition of the days-threshold loop for one record. -/
def keepDays (thresholdDay : Int) (c : CertResponse) : Bool :=
  match parseCertTime c.notBefore with
  | none => false
  | some t => decide (thresholdDay = (dtDay t : Int) ∨ thresholdDay < (dtDay t : Int))

lemma rangeFilterLog_fst (s e : Nat) :
    ∀ certs : List CertResponse,
      (rangeFilterLog s e certs).1 = certs.filter (keepRange s e)
  | [] => rfl
  | c :: rest => by
    simp only [rangeFilterLog, List.filter_cons]
    cases hp : parseCertTime c.notBefore with
    | none => simp [keepRange, hp, rangeFilterLog_fst s e rest]
    | some t =>
      by_cases hc : s < dtSecs t ∧ dtSecs t < e <;>
        simp [keepRange, hp, hc, rangeFilterLog_fst s e rest]

lemma rangeFilterLog_snd (s e : Nat) :
    ∀ certs : List CertResponse,
      (rangeFilterLog s e certs).2 =
        (certs.filter (fun c => (parseCertTime c.notBefore).isNone)).map
          (fun c => c.id)
  | [] => rfl
  | c :: rest => by
    simp only [rangeFilterLog, List.filter_cons]
    cases hp : parseCertTime c.notBefore with
    | none => simp [hp, rangeFilterLog_snd s e rest]
    | some t =>
      by_cases hc : s < dtSecs t ∧ dtSecs t < e <;>
        simp [hp, hc, rangeFilterLog_snd s e rest]

lemma daysFilterLog_fst (th : Int) :
    ∀ certs : List CertResponse,
      (daysFilterLog th certs).1 = certs.filter (keepDays th)
  | [] => rfl
  | c :: rest => by
    simp only [daysFilterLog, List.filter_cons]
    cases hp : parseCertTime c.notBefore with
    | none => simp [keepDays, hp, daysFilterLog_fst th rest]
    | some t =>
      by_cases hc : th = (dtDay t : Int) ∨ th < (dtDay t : Int) <;>
        simp [keepDays, hp, hc, daysFilterLog_fst th rest]

lemma daysFilterLog_snd (th : Int) :
    ∀ certs : List CertResponse,
      (daysFilterLog th certs).2 =
        (certs.filter (fun c => (parseCertTime c.notBefore).isNone)).map
          (fun c => c.id)
  | [] => rfl
  | c :: rest => by
    simp only [daysFilterLog, List.filter_cons]
    cases hp : parseCertTime c.notBefore with
    | none => simp [hp, daysFilterLog_snd th rest]
    | some t =>
      by_cases hc : th = (dtDay t : Int) ∨ th < (dtDay t : Int) <;>
        simp [hp, hc, daysFilterLog_snd th rest]

lemma keepRange_eq_true (s e : Nat) (c : CertResponse) :
    keepRange s e c = true ↔
      ∃ t, parseCertTime c.notBefore = some t ∧ s < dtSecs t ∧ dtSecs t < e := by
  cases hp : parseCertTime c.notBefore <;> simp [keepRange, hp]

lemma keepDays_eq_true (th : Int) (c : CertResponse) :
    keepDays th c = true ↔
      ∃ t, parseCertTime c.notBefore = some t ∧ th ≤ (dtDay t : Int) := by
  cases hp : parseCertTime c.notBefore with
  | none => simp [keepDays, hp]
  | some t =>
    simp only [keepDays, hp, decide_eq_true_eq, Option.some.injEq]
    constructor
    · rintro (h | h)
      · exact ⟨t, rfl, le_of_eq h⟩
      · exact ⟨t, rfl, le_of_lt h⟩
    · rintro ⟨u, hu, hle⟩
      cases hu
      exact (le_iff_lt_or_eq.mp hle).elim Or.inr (fun h => Or.inl h)

lemma mem_rangeFilterLog (s e : Nat) (certs : List CertResponse) (c : CertResponse) :
    c ∈ (rangeFilterLog s e certs).1 ↔
      c ∈ certs ∧ ∃ t, parseCertTime c.notBefore = some t ∧
        s < dtSecs t ∧ dtSecs t < e := by
  rw [rangeFilterLog_fst, List.mem_filter, keepRange_eq_true]

lemma mem_daysFilterLog (th : Int) (certs : List CertResponse) (c : CertResponse) :
    c ∈ (daysFilterLog th certs).1 ↔
      c ∈ certs ∧ ∃ t, parseCertTime c.notBefore = some t ∧ th ≤ (dtDay t : Int) := by
  rw [daysFilterLog_fst, List.mem_filter, keepDays_eq_true]

lemma dedupGo_sublist :
    ∀ (certs : List CertResponse) (seen : List String),
      List.Sublist (dedupGo certs seen) certs
  | [], _ => List.Sublist.refl []
  | c :: rest, seen => by
    simp only [dedupGo]
    split
    · exact (dedupGo_sublist rest seen).cons c
    · exact (dedupGo_sublist rest (certKey c :: seen)).cons₂ c

lemma dedupGo_nodup :
    ∀ (certs : List CertResponse) (seen : List String),
      ((dedupGo certs seen).map certKey).Nodup ∧
        ∀ c ∈ dedupGo certs seen, certKey c ∉ seen
  | [], seen => by simp [dedupGo]
  | c :: rest, seen => by
    simp only [dedupGo]
    split
    · case isTrue h =>
      obtain ⟨h1, h2⟩ := dedupGo_nodup rest seen
      exact ⟨h1, h2⟩
    · case isFalse h =>
      obtain ⟨h1, h2⟩ := dedupGo_nodup rest (certKey c :: seen)
      refine ⟨?_, ?_⟩
      · rw [List.map_cons, List.nodup_cons]
        refine ⟨?_, h1⟩
        intro hmem
        obtain ⟨c', hc', hkey⟩ := List.mem_map.mp hmem
        exact (h2 c' hc') (hkey ▸ List.mem_cons_self _ _)
      · intro x hx
        rcases List.mem_cons.mp hx with hx | hx
        · exact hx ▸ h
        · exact fun hs => (h2 x hx) (List.mem_cons_of_mem _ hs)

lemma dedupGo_filter (k : String) :
    ∀ (certs : List CertResponse) (seen : List String),
      (dedupGo certs seen).filter (fun c => certKey c == k) =
        if k ∈ seen then [] else (certs.find? (fun c => certKey c == k)).toList
  | [], seen => by simp [dedupGo]
  | c :: rest, seen => by
    simp only [dedupGo]
    by_cases hk : certKey c ∈ seen
    · rw [if_pos hk, dedupGo_filter k rest seen]
      by_cases hks : k ∈ seen
      · simp [hks]
      · have hne : (certKey c == k) = false :=
          beq_eq_false_iff_ne.mpr (fun h => hks (h ▸ hk))
        rw [if_neg hks, if_neg hks,
          @List.find?_cons_of_neg CertResponse (fun x => certKey x == k) c rest
            (by simp [hne])]
    · rw [if_neg hk]
      by_cases hck : certKey c = k
      · have hb : (certKey c == k) = true := by simp [hck]
        rw [List.filter_cons, if_pos hb, dedupGo_filter k rest (certKey c :: seen),
          if_pos (hck ▸ List.mem_cons_self _ _), if_neg (hck ▸ hk),
          @List.find?_cons_of_pos CertResponse (fun x => certKey x == k) c rest hb]
        rfl
      · have hb : (certKey c == k) = false := beq_eq_false_iff_ne.mpr hck
        rw [List.filter_cons, if_neg (by simp [hb]),
          dedupGo_filter k rest (certKey c :: seen)]
        have hmem : (k ∈ certKey c :: seen) ↔ k ∈ seen := by
          simp only [List.mem_cons]
          exact or_iff_right (fun h => hck h.symm)
        by_cases hks : k ∈ seen
        · rw [if_pos (hmem.mpr hks), if_pos hks]
        · rw [if_neg (fun h => hks (hmem.mp h)), if_neg hks,
            @List.find?_cons_of_neg CertResponse (fun x => certKey x == k) c rest
              (by simp [hb])]

lemma decodeLoop_ok_append :
    ∀ (arrays : List (List CertResponse)) (acc : List CertResponse)
      (e : String) (rest : List (Except String (List CertResponse))),
      decodeLoop acc (arrays.map Except.ok ++ Except.error e :: rest) =
        acc ++ arrays.flatten
  | [], acc, e, rest => by simp [decodeLoop]
  | a :: as, acc, e, rest => by
    have ih := decodeLoop_ok_append as (acc ++ a) e rest
    simp only [List.map_cons, List.cons_append, decodeLoop, List.append_eq]
    rw [ih, List.flatten_cons, List.append_assoc]

lemma filterStage_isOk (b : String) (d t : Int)
    (certs certs₂ : List CertResponse) :
    (filterStage b d t certs).isOk = (filterStage b d t certs₂).isOk := by
  by_cases hb : 0 < b.length
  · simp only [filterStage, if_pos hb]
    rcases hsr : setupRange b with e | p
    · rfl
    · rcases p with ⟨s, e⟩
      rfl
  · by_cases hd : 0 < d
    · simp only [filterStage, if_neg hb, if_pos hd]
      rfl
    · simp only [filterStage, if_neg hb, if_neg hd]
      rfl

/-- A concrete record with the given name value, notBefore string and
id; every other field is empty. -/
def mkCert (nv nb : String) (i : Int) : CertResponse :=
  { issuerCAID := 0, issuerName := "", commonName := "", nameValue := nv,
    id := i, entryTimestamp := "", notBefore := nb, notAfter := "",
    serialNumber := "" }

/-- A record whose notBefore string does not parse as a date-time. -/
def badCert : CertResponse := mkCert "bad.example" "not-a-date" 7

/-- C1 counterexample: for the range 2021-06-01:2021-06-30, a record
whose notBefore is exactly 2021-06-30T23:59:59 parses successfully and
yet is dropped by the date-range filter, so the claimed inclusion of a
record lying exactly on the extended end instant is false. -/
theorem c1_end_boundary_cex :
    (parseCertTime "2021-06-30T23:59:59").isSome = true ∧
    filterStage "2021-06-01:2021-06-30" (-1) 0
      [mkCert "example.com" "2021-06-30T23:59:59" 1] = Except.ok ([], []) :=
  ⟨rfl, rfl⟩

/-- C1 (amended): in date-range filter mode, with the parsed end date
extended by 23:59:59, a record passes the filter if and only if its
parsed notBefore timestamp is strictly after the start instant and
strictly before the extended end instant; a record whose notBefore is
exactly the end date at 23:59:59 lies on the extended end instant
itself and is therefore excluded, while every earlier instant of the
end day (such as 23:59:58) is included. -/
theorem c1_range_filter_amended :
    (∀ (s e : Nat) (certs : List CertResponse) (c : CertResponse),
        c ∈ (rangeFilterLog s e certs).1 ↔
          c ∈ certs ∧ ∃ t, parseCertTime c.notBefore = some t ∧
            s < dtSecs t ∧ dtSecs t < e) ∧
    filterStage "2021-06-01:2021-06-30" (-1) 0
      [mkCert "example.com" "2021-06-15T00:00:00" 2] =
        Except.ok ([mkCert "example.com" "2021-06-15T00:00:00" 2], []) ∧
    filterStage "2021-06-01:2021-06-30" (-1) 0
      [mkCert "example.com" "2021-07-01T00:00:00" 3] = Except.ok ([], []) ∧
    filterStage "2021-06-01:2021-06-30" (-1) 0
      [mkCert "example.com" "2021-06-30T23:59:59" 4] = Except.ok ([], []) ∧
    filterStage "2021-06-01:2021-06-30" (-1) 0
      [mkCert "example.com" "2021-06-30T23:59:58" 5] =
        Except.ok ([mkCert "example.com" "2021-06-30T23:59:58" 5], []) :=
  ⟨mem_rangeFilterLog, rfl, rfl, rfl, rfl⟩

/-- C2: when count-only output was not requested, the record list is
rendered (each record enriched with a crt_sh_link field equal to the
fixed prefix concatenated with its id) if and only if at least two
records survived filtering; with one or zero surviving records no
record bodies are printed; id 99 yields the link https://crt.sh/?id=99. -/
theorem c2_record_rendering :
    (∀ certs : List CertResponse, 2 ≤ certs.length →
        formatOutput false certs = GcrtOutput.records (certs.map enrich)) ∧
    (∀ certs : List CertResponse, certs.length ≤ 1 →
        formatOutput false certs = GcrtOutput.noOutput) ∧
    (enrich (mkCert "example.com" "x" 99)).crtShLink = "https://crt.sh/?id=99" := by
  refine ⟨?_, ?_, rfl⟩
  · intro certs h
    have h1 : 1 < certs.length := h
    simp [formatOutput, h1]
  · intro certs h
    have h1 : ¬1 < certs.length := by omega
    simp [formatOutput, h1]

/-- C2 witness: with two concrete records the enriched list is printed
and with a single concrete record nothing is printed. -/
theorem c2_witness :
    formatOutput false [mkCert "a" "x" 1, mkCert "b" "y" 2] =
      GcrtOutput.records ([mkCert "a" "x" 1, mkCert "b" "y" 2].map enrich) ∧
    formatOutput false [mkCert "a" "x" 1] = GcrtOutput.noOutput :=
  ⟨c2_record_rendering.1 _ (by decide), c2_record_rendering.2.1 _ (by decide)⟩

/-- C3: deduplication never lengthens the list, leaves no two records
sharing a (nameValue, notBefore) concatenation key, is a sublist of the
input (so relative order of the kept first occurrences is preserved),
and for every key the kept record is exactly the first input record
with that key. -/
theorem c3_dedup_properties (certs : List CertResponse) :
    (removeDuplicateCerts certs).length ≤ certs.length ∧
    ((removeDuplicateCerts certs).map certKey).Nodup ∧
    List.Sublist (removeDuplicateCerts certs) certs ∧
    ∀ k : String,
      (removeDuplicateCerts certs).filter (fun c => certKey c == k) =
        (certs.find? (fun c => certKey c == k)).toList := by
  refine ⟨(dedupGo_sublist certs []).length_le, (dedupGo_nodup certs []).1,
    dedupGo_sublist certs [], ?_⟩
  intro k
  simpa [removeDuplicateCerts] using dedupGo_filter k certs []

/-- C4: the decode loop accumulates the elements of each successfully
decoded array in order, a stream of two concatenated arrays yields the
in-order union of both, and any decode error (end of stream or
otherwise) terminates the loop with whatever was accumulated so far. -/
theorem c4_decode_loop :
    (∀ (arrays : List (List CertResponse)) (e : String)
        (rest : List (Except String (List CertResponse))),
        decodeLoop [] (arrays.map Except.ok ++ Except.error e :: rest) =
          arrays.flatten) ∧
    (∀ (a b : List CertResponse) (e : String),
        decodeLoop [] [Except.ok a, Except.ok b, Except.error e] = a ++ b) ∧
    (∀ (acc : List CertResponse) (e : String)
        (rest : List (Except String (List CertResponse))),
        decodeLoop acc (Except.error e :: rest) = acc) := by
  refine ⟨?_, ?_, fun acc e rest => rfl⟩
  · intro arrays e rest
    simpa using decodeLoop_ok_append arrays [] e rest
  · intro a b e
    simp [decodeLoop]

/-- C5: in days-threshold mode with positive N the threshold day is
today minus N days, and a record passes exactly when its parsed
notBefore, truncated to midnight, is on or after the threshold day;
with N equal to 7 and today 2024-01-10, a record with notBefore
2024-01-03T00:00:00 is included and one with 2024-01-02T23:59:59 is
excluded. -/
theorem c5_days_threshold :
    (∀ (d t : Int) (certs : List CertResponse), 0 < d →
        filterStage "" d t certs = Except.ok (daysFilterLog (t - d) certs)) ∧
    (∀ (th : Int) (certs : List CertResponse) (c : CertResponse),
        c ∈ (daysFilterLog th certs).1 ↔
          c ∈ certs ∧ ∃ u, parseCertTime c.notBefore = some u ∧
            th ≤ (dtDay u : Int)) ∧
    daysFilterLog ((dayNumber 2024 1 10 : Int) - 7)
      [mkCert "a" "2024-01-03T00:00:00" 1] =
        ([mkCert "a" "2024-01-03T00:00:00" 1], []) ∧
    daysFilterLog ((dayNumber 2024 1 10 : Int) - 7)
      [mkCert "a" "2024-01-02T23:59:59" 2] = ([], []) := by
  refine ⟨?_, mem_daysFilterLog, by decide, by decide⟩
  intro d t certs hd
  have hb : ¬0 < ("" : String).length := by decide
  simp only [filterStage, if_neg hb, if_pos hd]

/-- C5 witness: the days-mode branch applied with N equal to 7 and
today 2024-01-10 on a concrete record. -/
theorem c5_witness :
    filterStage "" 7 (dayNumber 2024 1 10 : Int)
      [mkCert "a" "2024-01-03T00:00:00" 1] =
      Except.ok (daysFilterLog ((dayNumber 2024 1 10 : Int) - 7)
        [mkCert "a" "2024-01-03T00:00:00" 1]) :=
  c5_days_threshold.1 7 (dayNumber 2024 1 10 : Int)
    [mkCert "a" "2024-01-03T00:00:00" 1] (by decide)

/-- C6: in both filtering modes a record whose notBefore fails to parse
is excluded from the kept records and its id is warned about, and the
failure is never fatal: whether the filter stage errors does not depend
on the record list at all. -/
theorem c6_parse_failure_nonfatal :
    (∀ (s e : Nat) (th : Int) (certs : List CertResponse) (c : CertResponse),
        parseCertTime c.notBefore = none → c ∈ certs →
          c ∉ (rangeFilterLog s e certs).1 ∧
          c.id ∈ (rangeFilterLog s e certs).2 ∧
          c ∉ (daysFilterLog th certs).1 ∧
          c.id ∈ (daysFilterLog th certs).2) ∧
    (∀ (b : String) (d t : Int) (certs certs₂ : List CertResponse),
        (filterStage b d t certs).isOk = (filterStage b d t certs₂).isOk) := by
  refine ⟨?_, filterStage_isOk⟩
  intro s e th certs c hp hc
  refine ⟨?_, ?_, ?_, ?_⟩
  · intro hmem
    obtain ⟨-, t', ht', -⟩ := (mem_rangeFilterLog s e certs c).mp hmem
    rw [hp] at ht'
    exact Option.noConfusion ht'
  · rw [rangeFilterLog_snd]
    exact List.mem_map.mpr ⟨c, List.mem_filter.mpr ⟨hc, by simp [hp]⟩, rfl⟩
  · intro hmem
    obtain ⟨-, t', ht', -⟩ := (mem_daysFilterLog th certs c).mp hmem
    rw [hp] at ht'
    exact Option.noConfusion ht'
  · rw [daysFilterLog_snd]
    exact List.mem_map.mpr ⟨c, List.mem_filter.mpr ⟨hc, by simp [hp]⟩, rfl⟩

/-- C6 witness: a concrete record with an unparseable notBefore is
dropped and warned about by both filtering loops. -/
theorem c6_witness :
    badCert ∉ (rangeFilterLog 0 1 [badCert]).1 ∧
    badCert.id ∈ (rangeFilterLog 0 1 [badCert]).2 ∧
    badCert ∉ (daysFilterLog 0 [badCert]).1 ∧
    badCert.id ∈ (daysFilterLog 0 [badCert]).2 :=
  c6_parse_failure_nonfatal.1 0 1 0 [badCert] badCert rfl
    (List.mem_singleton.mpr rfl)

/-- C7: mode selection is mutually exclusive and complete: a nonempty
date-range input selects the date-range mode whatever the days value
is, an empty date-range input with a positive days value selects the
days-threshold mode, and with neither present the deduplicated records
pass through unfiltered and unchanged. -/
theorem c7_mode_selection :
    (∀ (b : String) (d d₂ t : Int) (certs : List CertResponse), 0 < b.length →
        filterStage b d t certs = filterStage b d₂ t certs) ∧
    (∀ (b : String) (d t : Int) (certs : List CertResponse), 0 < b.length →
        filterStage b d t certs =
          match setupRange b with
          | Except.error e => Except.error e
          | Except.ok (s, e) => Except.ok (rangeFilterLog s e certs)) ∧
    (∀ (b : String) (d t : Int) (certs : List CertResponse),
        b.length = 0 → 0 < d →
        filterStage b d t certs = Except.ok (daysFilterLog (t - d) certs)) ∧
    (∀ (b : String) (d t : Int) (certs : List CertResponse),
        b.length = 0 → d ≤ 0 →
        filterStage b d t certs = Except.ok (certs, [])) := by
  refine ⟨?_, ?_, ?_, ?_⟩
  · intro b d d₂ t certs hb
    simp only [filterStage, if_pos hb]
  · intro b d t certs hb
    simp only [filterStage, if_pos hb]
  · intro b d t certs hb hd
    have hb0 : ¬0 < b.length := by omega
    simp only [filterStage, if_neg hb0, if_pos hd]
  · intro b d t certs hb hd
    have hb0 : ¬0 < b.length := by omega
    have hd0 : ¬0 < d := by omega
    simp only [filterStage, if_neg hb0, if_neg hd0]

/-- C7 witness: the three modes exercised on concrete inputs, with the
date range overriding a positive days value. -/
theorem c7_witness :
    filterStage "2021-06-01:2021-06-30" 5 0 [] =
      filterStage "2021-06-01:2021-06-30" (-1) 0 [] ∧
    filterStage "" 5 0 [] = Except.ok (daysFilterLog (0 - 5) []) ∧
    filterStage "" (-1) 0 [] = Except.ok ([], []) :=
  ⟨c7_mode_selection.1 "2021-06-01:2021-06-30" 5 (-1) 0 [] (by decide),
   c7_mode_selection.2.2.1 "" 5 0 [] rfl (by decide),
   c7_mode_selection.2.2.2 "" (-1) 0 [] rfl (by decide)⟩

/-- C8: in count mode the program prints exactly the line
Number of certs found: n, where n is the number of surviving records,
and emits no record bodies whatever the count is; with five surviving
records the line is Number of certs found: 5. -/
theorem c8_count_mode :
    (∀ certs : List CertResponse,
        formatOutput true certs =
          GcrtOutput.countLine
            ("Number of certs found: " ++ toString certs.length)) ∧
    (∀ (b : String) (d t : Int) (decoded : List CertResponse)
        (o : GcrtOutput) (w : List Int),
        GetCerts b d true t decoded = Except.ok (o, w) →
          ∃ n : Nat, o = GcrtOutput.countLine
            ("Number of certs found: " ++ toString n)) ∧
    formatOutput true
      [mkCert "a" "x" 1, mkCert "b" "x" 2, mkCert "c" "x" 3,
        mkCert "d" "x" 4, mkCert "e" "x" 5] =
      GcrtOutput.countLine "Number of certs found: 5" := by
  refine ⟨fun certs => rfl, ?_, by decide⟩
  intro b d t decoded o w h
  unfold GetCerts at h
  rcases hf : filterStage b d t (removeDuplicateCerts decoded) with e | p
  · rw [hf] at h
    exact Except.noConfusion h
  · rw [hf] at h
    rcases p with ⟨out, warns⟩
    simp only [Except.ok.injEq, Prod.mk.injEq] at h
    refine ⟨out.length, ?_⟩
    rw [← h.1]
    rfl

/-- C8 witness: an empty decoded list in count mode yields the count
line for zero records. -/
theorem c8_witness :
    ∃ n : Nat, GcrtOutput.countLine "Number of certs found: 0" =
      GcrtOutput.countLine ("Number of certs found: " ++ toString n) :=
  c8_count_mode.2.1 "" (-1) 0 []
    (GcrtOutput.countLine "Number of certs found: 0") [] (by rfl)

/-- C9: once date-range mode is requested, a range whose setup fails
(no substring matching the range pattern, or a boundary that fails to
parse as a calendar date) is fatal: the whole run aborts with the
reported error and produces no output; three concrete failure shapes. -/
theorem c9_range_setup_fatal :
    (∀ (b : String) (d t : Int) (countFlag : Bool)
        (decoded : List CertResponse) (msg : String),
        setupRange b = Except.error msg → 0 < b.length →
          GetCerts b d countFlag t decoded = Except.error msg) ∧
    (∀ b : String, findRange b.data = none →
        setupRange b = Except.error "start date not provided in valid format") ∧
    setupRange "2021-06-01" =
      Except.error "start date not provided in valid format" ∧
    setupRange "9999-99-99:2021-06-30" = Except.error "Error parsing start date" ∧
    setupRange "2021-06-01:2021-99-99" = Except.error "Error parsing end date" := by
  refine ⟨?_, ?_, rfl, rfl, rfl⟩
  · intro b d t countFlag decoded msg hsr hb
    unfold GetCerts filterStage
    rw [if_pos hb, hsr]
  · intro b hf
    unfold setupRange
    rw [hf]

/-- C9 witness: a between string with no end component aborts the whole
pipeline with the start-date error. -/
theorem c9_witness :
    GetCerts "2021-06-01" 0 false 0 [mkCert "a" "2021-06-15T00:00:00" 1] =
      Except.error "start date not provided in valid format" :=
  c9_range_setup_fatal.1 "2021-06-01" 0 0 false
    [mkCert "a" "2021-06-15T00:00:00" 1]
    "start date not provided in valid format" rfl (by decide)

/-- C10: the deduplication key is the unchecked concatenation of
nameValue and notBefore, so two records with distinct field pairs can
share a key, and the later one is dropped: the pair (a, bc) collides
with the pair (ab, c). -/
theorem c10_key_collision :
    certKey (mkCert "a" "bc" 1) = certKey (mkCert "ab" "c" 2) ∧
    (mkCert "a" "bc" 1).nameValue ≠ (mkCert "ab" "c" 2).nameValue ∧
    (mkCert "a" "bc" 1).notBefore ≠ (mkCert "ab" "c" 2).notBefore ∧
    removeDuplicateCerts [mkCert "a" "bc" 1, mkCert "ab" "c" 2] =
      [mkCert "a" "bc" 1] :=
  ⟨rfl, by decide, by decide, by decide⟩
